import Mathlib

/-!
Shallow embedding of `src/scripts/fetch.py` (MCVersions).

The script fetches the Mojang version manifest, computes a fingerprint
string from its `latest` section, short-circuits when the fingerprint
equals the previously stored one, otherwise fetches and normalizes each
per-version detail document, appends a curated list of experimental
versions, sorts the result ascending by `datetime.fromisoformat` of the
release time and reverses it, and finally renders two output files.

I/O boundaries are modelled as explicit inputs:
  * the manifest fetch+parse result is an `Option ManifestJson`
    (`none` = the manifest could not be fetched or parsed);
  * per-entry detail fetch+parse is a function `String → Option RawDetail`
    from url to parse result (`none` = unfetchable/malformed);
  * the Jinja templates are injected render functions; file writes are
    returned as a list of `(path, contents)` pairs;
  * Python exceptions propagating out of the pipeline are modelled by
    `Except PipelineError`.
-/

namespace MCVersions

/-- Class for holding downloads (dataclass `Download`, fetch.py lines 28-33).
Every field may be Python `None`, hence `Option`. -/
structure Download where
  sha1 : Option String
  size : Option Int
  url : Option String
deriving DecidableEq, Repr

/-- Class for holding Version (dataclass `Version`, fetch.py lines 35-43). -/
structure Version where
  url : Option String
  id_ : Option String
  type_ : Option String
  release_time : Option String
  server : Option Download
  server_mappings : Option Download
deriving DecidableEq, Repr

/-- Class for holding the Version Manifest (dataclass `VersionManifest`,
fetch.py lines 45-52): a `version_string` fingerprint and the sorted
version list. -/
structure VersionManifest where
  version_string : String
  versions : List Version
deriving DecidableEq, Repr

/-- The curated supplement `EXPERIMENTAL_1_18_VERSIONS` (fetch.py lines
55-140), transcribed verbatim: seven experimental 1.18 versions, each with
no source url, type "experimental", a fixed release time, a server
download carrying only a url, and no mappings download. -/
def EXPERIMENTAL_1_18_VERSIONS : List Version := [
  ⟨none, some "1.18-exp1", some "experimental", some "2021-09-01T00:00:00+00:00",
    some ⟨none, none, some "https://launcher.mojang.com/v1/objects/231bba2a21e18b8c60976e1f6110c053b7b93226/1_18_experimental-snapshot-1.zip"⟩, none⟩,
  ⟨none, some "1.18-exp2", some "experimental", some "2021-09-02T00:00:00+00:00",
    some ⟨none, none, some "https://launcher.mojang.com/v1/objects/0adfe4f321aa45248fc88ac888bed5556633e7fb/1_18_experimental-snapshot-2.zip"⟩, none⟩,
  ⟨none, some "1.18-exp3", some "experimental", some "2021-09-03T00:00:00+00:00",
    some ⟨none, none, some "https://launcher.mojang.com/v1/objects/846648ff9fe60310d584061261de43010e5c722b/1_18_experimental-snapshot-3.zip"⟩, none⟩,
  ⟨none, some "1.18-exp4", some "experimental", some "2021-09-04T00:00:00+00:00",
    some ⟨none, none, some "https://launcher.mojang.com/v1/objects/b92a360cbae2eb896a62964ad8c06c3493b6c390/1_18_experimental-snapshot-4.zip"⟩, none⟩,
  ⟨none, some "1.18-exp5", some "experimental", some "2021-09-05T00:00:00+00:00",
    some ⟨none, none, some "https://launcher.mojang.com/v1/objects/d9cb7f6fb4e440862adfb40a385d83e3f8d154db/1_18_experimental-snapshot-5.zip"⟩, none⟩,
  ⟨none, some "1.18-exp6", some "experimental", some "2021-09-06T00:00:00+00:00",
    some ⟨none, none, some "https://launcher.mojang.com/v1/objects/4697c84c6a347d0b8766759d5b00bc5a00b1b858/1_18_experimental-snapshot-6.zip"⟩, none⟩,
  ⟨none, some "1.18-exp7", some "experimental", some "2021-09-08T00:00:00+00:00",
    some ⟨none, none, some "https://launcher.mojang.com/v1/objects/ab4ecebb133f56dd4c4c4c3257f030a947ddea84/1_18_experimental-snapshot-7.zip"⟩, none⟩]

/-- A raw `downloads.server` / `downloads.server_mappings` sub-object of a
detail document; every sub-field lookup goes through
`defaultdict(lambda: None, ...)` in the source, so each is optional. -/
structure RawDownload where
  sha1 : Option String
  size : Option Int
  url : Option String
deriving DecidableEq, Repr

/-- The raw `downloads` object of a detail document, with its two optional
sub-objects. -/
structure RawDownloads where
  server : Option RawDownload
  server_mappings : Option RawDownload
deriving DecidableEq, Repr

/-- A parsed per-version detail document (the JSON object fetched at a
manifest entry's url). All top-level lookups in the source go through
`defaultdict(lambda: None, json.loads(...))`, so every field is optional. -/
structure RawDetail where
  id : Option String
  type_ : Option String
  releaseTime : Option String
  downloads : Option RawDownloads
deriving DecidableEq, Repr

/-- The parsed top-level version manifest: the `latest.release` and
`latest.snapshot` strings and, for each element of `versions`, the url the
source reads at line 180 (`v["url"] for v in vm_json["versions"]`). -/
structure ManifestLatest where
  release : String
  snapshot : String
deriving DecidableEq, Repr

/-- The top-level manifest JSON as the pipeline consumes it. -/
structure ManifestJson where
  latest : ManifestLatest
  versions : List String
deriving DecidableEq, Repr

/-- Python exceptions escaping the pipeline: a failed manifest fetch/parse
(lines 178-179), a failed detail fetch/parse inside `process_version`
(line 148), or `datetime.fromisoformat` raising on a version's release
time during the sort (line 188). -/
inductive PipelineError where
  | manifestUnavailable : PipelineError
  | malformedDocument : String → PipelineError
  | unparseableTimestamp : Version → PipelineError
deriving DecidableEq, Repr

/-- Value of a single decimal digit character, `none` otherwise. -/
def digit? (c : Char) : Option Nat :=
  if c.isDigit then some (c.toNat - 48) else none

/-- Two-digit decimal number from two characters. -/
def num2? (a b : Char) : Option Nat := do
  pure ((← digit? a) * 10 + (← digit? b))

/-- Four-digit decimal number from four characters. -/
def num4? (a b c d : Char) : Option Nat := do
  pure ((← digit? a) * 1000 + (← digit? b) * 100 + (← digit? c) * 10 + (← digit? d))

/-- Days since 1970-01-01 of a proleptic-Gregorian civil date
(year, month 1-12, day 1-31), the standard days-from-civil computation
underlying `datetime` ordinals. -/
def daysFromCivil (y : Int) (m d : Nat) : Int :=
  let y2 : Int := if m ≤ 2 then y - 1 else y
  let era : Int := (if 0 ≤ y2 then y2 else y2 - 399) / 400
  let yoe : Int := y2 - era * 400
  let mp : Int := if 2 < m then (m : Int) - 3 else (m : Int) + 9
  let doy : Int := (153 * mp + 2) / 5 + (d : Int) - 1
  let doe : Int := yoe * 365 + yoe / 4 - yoe / 100 + doy
  era * 146097 + doe - 719468

/-- UTC-offset suffix of an ISO-8601 timestamp, in minutes: empty (naive,
offset 0) or `±HH:MM`. -/
def parseTZ : List Char → Option Int
  | [] => some 0
  | ['+', h1, h2, ':', m1, m2] => do
      pure (((← num2? h1 h2) * 60 + (← num2? m1 m2) : Nat) : Int)
  | ['-', h1, h2, ':', m1, m2] => do
      pure (-(((← num2? h1 h2) * 60 + (← num2? m1 m2) : Nat) : Int))
  | _ => none

/-- Model of `datetime.fromisoformat` restricted to the
`YYYY-MM-DDTHH:MM:SS[±HH:MM]` shapes the catalog uses, returning the
instant as seconds relative to the epoch (offset-aware comparison order),
or `none` where `fromisoformat` raises `ValueError`. -/
def fromisoformat (s : String) : Option Int :=
  match s.data with
  | y1 :: y2 :: y3 :: y4 :: '-' :: mo1 :: mo2 :: '-' :: d1 :: d2 :: sep :: h1 :: h2 :: ':' :: mi1 :: mi2 :: ':' :: s1 :: s2 :: rest => do
      let y ← num4? y1 y2 y3 y4
      let mo ← num2? mo1 mo2
      let d ← num2? d1 d2
      let h ← num2? h1 h2
      let mi ← num2? mi1 mi2
      let sec ← num2? s1 s2
      if sep = 'T' ∧ 1 ≤ mo ∧ mo ≤ 12 ∧ 1 ≤ d ∧ d ≤ 31 ∧ h ≤ 23 ∧ mi ≤ 59 ∧ sec ≤ 59 then
        let off ← parseTZ rest
        pure (daysFromCivil (y : Int) mo d * 86400 + (h : Int) * 3600 + (mi : Int) * 60 + (sec : Int) - off * 60)
      else
        none
  | _ => none

/-- The sort key `datetime.fromisoformat(v.release_time)` of line 188
applied to an optional release time: `fromisoformat(None)` raises in
Python (`none` here), otherwise the string is parsed. -/
def releaseKey (rt : Option String) : Option Int :=
  rt.bind fromisoformat

/-- Fetches a specific version from the url and filters the information
(`process_version`, fetch.py lines 142-173), on an already parsed detail
document: every field access is an optional lookup, and the `server` /
`server_mappings` downloads are built only when `downloads` and the
respective sub-object are present. -/
def process_version (url : String) (doc : RawDetail) : Version :=
  let id_ := doc.id
  let type_ := doc.type_
  let release_time := doc.releaseTime
  let server : Option Download :=
    match doc.downloads with
    | none => none
    | some downloads =>
      match downloads.server with
      | none => none
      | some d => some ⟨d.sha1, d.size, d.url⟩
  let server_mappings : Option Download :=
    match doc.downloads with
    | none => none
    | some downloads =>
      match downloads.server_mappings with
      | none => none
      | some d => some ⟨d.sha1, d.size, d.url⟩
  ⟨some url, id_, type_, release_time, server, server_mappings⟩

/-- `process_version` including its fetch+parse boundary (lines 148):
`requests.get` / `json.loads` failure at the url propagates as an
exception, otherwise the parsed document is normalized. -/
def process_version_fetched (details : String → Option RawDetail) (url : String) :
    Except PipelineError Version :=
  match details url with
  | none => .error (.malformedDocument url)
  | some doc => .ok (process_version url doc)

/-- The decorate step of `sorted(version_list, key=...)` at line 188:
the key `datetime.fromisoformat(v.release_time)` is computed once per
element; an unparseable release time raises. -/
def decorate (v : Version) : Except PipelineError (Version × Int) :=
  match releaseKey v.release_time with
  | none => .error (.unparseableTimestamp v)
  | some t => .ok (v, t)

/-- Ascending comparison of decorated versions by their sort key. -/
def keyLE (a b : Version × Int) : Prop := a.2 ≤ b.2

instance : DecidableRel keyLE := fun a b => inferInstanceAs (Decidable (a.2 ≤ b.2))

instance : IsTotal (Version × Int) keyLE := ⟨fun a b => le_total a.2 b.2⟩

instance : IsTrans (Version × Int) keyLE := ⟨fun _ _ _ h1 h2 => le_trans h1 h2⟩

/-- `sorted(version_list, key=lambda v: datetime.fromisoformat(v.release_time))[::-1]`
(fetch.py line 188): decorate each element with its key, stable-sort
ascending by key (Python `sorted` is the stable ascending sort, whose
output coincides with stable insertion sort), strip the keys, and reverse. -/
def sortVersions (version_list : List Version) : Except PipelineError (List Version) := do
  let keyed ← version_list.mapM decorate
  return ((List.insertionSort keyLE keyed).map Prod.fst).reverse

/-- The fingerprint `f"{vm_json['latest']['release']}/{vm_json['latest']['snapshot']}"`
computed at fetch.py line 182. -/
def version_string (vm_json : ManifestJson) : String :=
  vm_json.latest.release ++ "/" ++ vm_json.latest.snapshot

/-- Fetches the version manifest and parses it (`process_version_manifest`,
fetch.py lines 175-190). `manifest = none` models a failed manifest
fetch/parse. Returns `none` (Python `None`) when the fingerprint equals
`previous_version_string` — before any detail fetch — and otherwise
fetches and normalizes every listed version, appends
`EXPERIMENTAL_1_18_VERSIONS`, and sorts descending by release time. -/
def process_version_manifest (details : String → Option RawDetail)
    (manifest : Option ManifestJson) (previous_version_string : Option String) :
    Except PipelineError (Option VersionManifest) := do
  match manifest with
  | none => throw .manifestUnavailable
  | some vm_json =>
    let url_list := vm_json.versions
    let vstr := version_string vm_json
    if previous_version_string = some vstr then
      return none
    let fetched ← url_list.mapM (process_version_fetched details)
    let version_list := fetched ++ EXPERIMENTAL_1_18_VERSIONS
    let sorted_list ← sortVersions version_list
    return some ⟨vstr, sorted_list⟩

/-- Python `file.readline()` on the whole file contents: the first line
including its trailing newline (the whole string when it has no newline). -/
def readline (s : String) : String :=
  match s.data.findIdx? (fun c => c = '\n') with
  | none => s
  | some i => ⟨s.data.take (i + 1)⟩

/-- `generate_and_print_md` (fetch.py lines 192-204) with the two Jinja
templates injected as render functions: returns the two file writes it
performs, README first, dedupe second. -/
def generate_and_print_md (readmeRender : List Version → String → String)
    (dedupeRender : String → String) (version_list : List Version)
    (vstr readme_file dedupe_file : String) : List (String × String) :=
  [(readme_file, readmeRender version_list vstr), (dedupe_file, dedupeRender vstr)]

/-- `main` (fetch.py lines 206-227): reads the previous fingerprint line
from the dedupe file (`dedupeFileContent = none` models
`FileNotFoundError`, leaving the previous fingerprint `None`), runs the
pipeline, and returns the list of file writes performed: none when the
manifest is unchanged, otherwise the README and dedupe writes. -/
def main (details : String → Option RawDetail) (manifest : Option ManifestJson)
    (dedupeFileContent : Option String)
    (readmeRender : List Version → String → String) (dedupeRender : String → String)
    (output_directory : String) : Except PipelineError (List (String × String)) := do
  let readme_file := output_directory ++ "/README.md"
  let dedupe_file := output_directory ++ "/dedupe"
  let previous_version_string := dedupeFileContent.map readline
  match ← process_version_manifest details manifest previous_version_string with
  | none => return []
  | some version_manifest =>
    return generate_and_print_md readmeRender dedupeRender version_manifest.versions
      version_manifest.version_string readme_file dedupe_file

/-! ### Concrete fixtures

Small concrete pipeline inputs (a manifest, detail oracles and the records
the pipeline produces from them), used to instantiate the theorems below
on executable runs. -/

/-- A detail oracle with no fetchable documents. -/
def detailsEmpty : String → Option RawDetail := fun _ => none

/-- A manifest with latest 1.20.1 / 23w31a and no listed versions. -/
def manifestA : ManifestJson := ⟨⟨"1.20.1", "23w31a"⟩, []⟩

/-- A manifest with latest 1.20.1 / 23w31a and one listed version url. -/
def manifestR : ManifestJson := ⟨⟨"1.20.1", "23w31a"⟩, ["u1"]⟩

/-- A remote detail document whose release time ties with the first
curated experimental version. -/
def docTied : RawDetail := ⟨some "r", some "release", some "2021-09-01T00:00:00+00:00", none⟩

/-- Detail oracle serving `docTied` at url u1. -/
def detailsTied : String → Option RawDetail := fun u => if u = "u1" then some docTied else none

/-- The normalized form of `docTied`. -/
def verTied : Version := ⟨some "u1", some "r", some "release", some "2021-09-01T00:00:00+00:00", none, none⟩

/-- The first curated experimental version, as a standalone record. -/
def expOne : Version :=
  ⟨none, some "1.18-exp1", some "experimental", some "2021-09-01T00:00:00+00:00",
    some ⟨none, none, some "https://launcher.mojang.com/v1/objects/231bba2a21e18b8c60976e1f6110c053b7b93226/1_18_experimental-snapshot-1.zip"⟩, none⟩

/-- A remote detail document with no releaseTime field. -/
def docBad : RawDetail := ⟨some "b", some "release", none, none⟩

/-- Detail oracle serving `docBad` at url u1. -/
def detailsBad : String → Option RawDetail := fun u => if u = "u1" then some docBad else none

/-- The normalized form of `docBad`: its release time is absent. -/
def verBad : Version := ⟨some "u1", some "b", some "release", none, none, none⟩

/-- A remote detail document whose id coincides with the first curated
version's id. -/
def docDup : RawDetail := ⟨some "1.18-exp1", some "release", some "2021-09-01T00:00:00+00:00", none⟩

/-- Detail oracle serving `docDup` at url u1. -/
def detailsDup : String → Option RawDetail := fun u => if u = "u1" then some docDup else none

/-- The normalized form of `docDup`. -/
def verDup : Version := ⟨some "u1", some "1.18-exp1", some "release", some "2021-09-01T00:00:00+00:00", none, none⟩

/-- Catalog produced from `manifestR`/`detailsTied` on a first run. -/
def catTied : VersionManifest := ⟨"1.20.1/23w31a", EXPERIMENTAL_1_18_VERSIONS.reverse ++ [verTied]⟩

/-- Catalog produced from `manifestR`/`detailsDup` on a first run. -/
def catDup : VersionManifest := ⟨"1.20.1/23w31a", EXPERIMENTAL_1_18_VERSIONS.reverse ++ [verDup]⟩

/-- Catalog produced from `manifestA`/`detailsEmpty` on a first run. -/
def catEmpty : VersionManifest := ⟨"1.20.1/23w31a", EXPERIMENTAL_1_18_VERSIONS.reverse⟩

/-- The sort key of a version whose release time parses (proof-side view
of the key computed by `decorate`). -/
def keyOf (v : Version) : Int := (releaseKey v.release_time).getD 0

/-! ### Helper lemmas -/

theorem pure_eq_ok {ε α : Type} (a : α) : (pure a : Except ε α) = Except.ok a := rfl

theorem ok_bind {ε α β : Type} (a : α) (g : α → Except ε β) :
    (Except.ok a >>= g) = g a := rfl

theorem error_bind {ε α β : Type} (e : ε) (g : α → Except ε β) :
    ((Except.error e : Except ε α) >>= g) = Except.error e := rfl

theorem mapM_ok_forall₂ {ε α β : Type} (f : α → Except ε β) :
    ∀ {l : List α} {ys : List β}, l.mapM f = Except.ok ys →
      List.Forall₂ (fun x y => f x = Except.ok y) l ys
  | [], ys, h => by
      simp only [List.mapM_nil] at h
      cases h
      exact List.Forall₂.nil
  | a :: l, ys, h => by
      rw [List.mapM_cons] at h
      cases hfa : f a with
      | error e => rw [hfa, error_bind] at h; simp at h
      | ok x =>
        rw [hfa, ok_bind] at h
        cases hl : l.mapM f with
        | error e => rw [hl, error_bind] at h; simp at h
        | ok xs =>
          rw [hl, ok_bind] at h
          have hys : ys = x :: xs := by
            have : (Except.ok (x :: xs) : Except ε (List β)) = Except.ok ys := h
            simpa using this.symm
          subst hys
          exact List.Forall₂.cons hfa (mapM_ok_forall₂ f hl)

theorem mapM_error_of_mem {ε α β : Type} (f : α → Except ε β) :
    ∀ {l : List α}, (∃ x ∈ l, ∃ e, f x = Except.error e) →
      ∃ x ∈ l, ∃ e, f x = Except.error e ∧ l.mapM f = Except.error e
  | [], h => by simp at h
  | a :: l, h => by
      rw [List.mapM_cons]
      cases hfa : f a with
      | error e =>
        exact ⟨a, List.mem_cons_self a l, e, hfa, by rw [error_bind]⟩
      | ok x =>
        obtain ⟨y, hy, e, he⟩ := h
        have hyl : y ∈ l := by
          rcases List.mem_cons.mp hy with h1 | h2
          · subst h1; rw [hfa] at he; simp at he
          · exact h2
        obtain ⟨y2, hy2, e2, he2, hm⟩ := mapM_error_of_mem f ⟨y, hyl, e, he⟩
        refine ⟨y2, List.mem_cons_of_mem a hy2, e2, he2, ?_⟩
        rw [ok_bind, hm, error_bind]

theorem forall₂_mem_right {α β : Type} {R : α → β → Prop} :
    ∀ {l1 : List α} {l2 : List β}, List.Forall₂ R l1 l2 →
      ∀ y ∈ l2, ∃ x ∈ l1, R x y := by
  intro l1 l2 h
  induction h with
  | nil => simp
  | cons hR _ ih =>
    intro y hy
    rcases List.mem_cons.mp hy with h1 | h2
    · subst h1; exact ⟨_, List.mem_cons_self _ _, hR⟩
    · obtain ⟨x, hx, hxy⟩ := ih y h2
      exact ⟨x, List.mem_cons_of_mem _ hx, hxy⟩

theorem decorate_eq_ok {v : Version} {p : Version × Int}
    (h : decorate v = Except.ok p) :
    p.1 = v ∧ releaseKey v.release_time = some p.2 := by
  cases hk : releaseKey v.release_time with
  | none => simp [decorate, hk] at h
  | some t =>
    simp only [decorate, hk] at h
    have h2 : (v, t) = p := by simpa using h
    constructor
    · rw [← h2]
    · rw [← h2]

theorem decorate_eq_error {v : Version} {e : PipelineError}
    (h : decorate v = Except.error e) :
    releaseKey v.release_time = none ∧ e = PipelineError.unparseableTimestamp v := by
  cases hk : releaseKey v.release_time with
  | none =>
    simp only [decorate, hk] at h
    have : PipelineError.unparseableTimestamp v = e := by simpa using h
    exact ⟨rfl, this.symm⟩
  | some t => simp [decorate, hk] at h

theorem decorate_forall₂ :
    ∀ {l : List Version} {keyed : List (Version × Int)},
      List.Forall₂ (fun v p => decorate v = Except.ok p) l keyed →
      keyed = l.map (fun v => (v, keyOf v)) ∧
        ∀ v ∈ l, releaseKey v.release_time = some (keyOf v) := by
  intro l keyed h
  induction h with
  | nil => exact ⟨rfl, by simp⟩
  | @cons v p l2 keyed2 hR _ ih =>
    obtain ⟨hp, hk⟩ := decorate_eq_ok hR
    have hkey : keyOf v = p.2 := by rw [keyOf, hk]; rfl
    constructor
    · rw [List.map_cons, ← ih.1]
      have hpv : p = (v, keyOf v) := by
        rw [hkey]
        exact Prod.ext hp rfl
      rw [← hpv]
    · intro w hw
      rcases List.mem_cons.mp hw with h1 | h2
      · subst h1; rw [hk, hkey]
      · exact ih.2 w h2

theorem sortVersions_ok {l out : List Version}
    (h : sortVersions l = Except.ok out) :
    (∀ v ∈ l, releaseKey v.release_time = some (keyOf v)) ∧
    out = ((List.insertionSort keyLE (l.map (fun v => (v, keyOf v)))).map Prod.fst).reverse := by
  unfold sortVersions at h
  cases hd : l.mapM decorate with
  | error e => rw [hd, error_bind] at h; simp at h
  | ok keyed =>
    rw [hd, ok_bind] at h
    obtain ⟨hkeyed, hall⟩ := decorate_forall₂ (mapM_ok_forall₂ _ hd)
    have hout : ((List.insertionSort keyLE keyed).map Prod.fst).reverse = out := by
      rw [pure_eq_ok] at h
      simpa using h
    exact ⟨hall, by rw [← hout, hkeyed]⟩

theorem pvm_unchanged {details : String → Option RawDetail} {m : ManifestJson}
    {prev : Option String} (hc : prev = some (version_string m)) :
    process_version_manifest details (some m) prev = Except.ok none := by
  simp [process_version_manifest, hc, pure_eq_ok]

theorem pvm_ok_some {details : String → Option RawDetail} {m : ManifestJson}
    {prev : Option String} {cat : VersionManifest}
    (h : process_version_manifest details (some m) prev = Except.ok (some cat)) :
    prev ≠ some (version_string m) ∧
    ∃ fetched, m.versions.mapM (process_version_fetched details) = Except.ok fetched ∧
      (∀ v ∈ fetched ++ EXPERIMENTAL_1_18_VERSIONS, releaseKey v.release_time = some (keyOf v)) ∧
      cat.version_string = version_string m ∧
      cat.versions = ((List.insertionSort keyLE
        ((fetched ++ EXPERIMENTAL_1_18_VERSIONS).map (fun v => (v, keyOf v)))).map Prod.fst).reverse := by
  by_cases hc : prev = some (version_string m)
  · rw [pvm_unchanged hc] at h
    simp at h
  · refine ⟨hc, ?_⟩
    simp only [process_version_manifest] at h
    rw [if_neg hc] at h
    cases hf : m.versions.mapM (process_version_fetched details) with
    | error e => rw [hf, error_bind] at h; simp at h
    | ok fetched =>
      rw [hf, ok_bind] at h
      cases hs : sortVersions (fetched ++ EXPERIMENTAL_1_18_VERSIONS) with
      | error e => rw [hs, error_bind] at h; simp at h
      | ok sorted_list =>
        rw [hs, ok_bind] at h
        obtain ⟨hall, hout⟩ := sortVersions_ok hs
        rw [pure_eq_ok] at h
        have hcat : ({ version_string := version_string m, versions := sorted_list } : VersionManifest) = cat := by
          simpa using h
        refine ⟨fetched, rfl, hall, ?_, ?_⟩
        · rw [← hcat]
        · rw [← hcat]; exact hout

theorem pvm_changed_ne_ok_none {details : String → Option RawDetail} {m : ManifestJson}
    {prev : Option String} (hc : ¬ prev = some (version_string m)) :
    process_version_manifest details (some m) prev ≠ Except.ok none := by
  intro h
  simp only [process_version_manifest] at h
  rw [if_neg hc] at h
  cases hf : m.versions.mapM (process_version_fetched details) with
  | error e => rw [hf, error_bind] at h; simp at h
  | ok fetched =>
    rw [hf, ok_bind] at h
    cases hs : sortVersions (fetched ++ EXPERIMENTAL_1_18_VERSIONS) with
    | error e => rw [hs, error_bind] at h; simp at h
    | ok sorted_list => rw [hs, ok_bind, pure_eq_ok] at h; simp at h

theorem map_fst_decorated (l : List Version) :
    (l.map (fun v => (v, keyOf v))).map Prod.fst = l := by
  induction l with
  | nil => rfl
  | cons a l ih => simp only [List.map_cons, ih]

theorem pvm_versions_perm {details : String → Option RawDetail} {m : ManifestJson}
    {prev : Option String} {cat : VersionManifest}
    (h : process_version_manifest details (some m) prev = Except.ok (some cat)) :
    ∃ fetched, m.versions.mapM (process_version_fetched details) = Except.ok fetched ∧
      cat.versions.Perm (fetched ++ EXPERIMENTAL_1_18_VERSIONS) := by
  obtain ⟨-, fetched, hf, -, -, hv⟩ := pvm_ok_some h
  refine ⟨fetched, hf, ?_⟩
  rw [hv]
  have h1 : ((List.insertionSort keyLE
      ((fetched ++ EXPERIMENTAL_1_18_VERSIONS).map (fun v => (v, keyOf v)))).map Prod.fst).reverse.Perm
      ((List.insertionSort keyLE
      ((fetched ++ EXPERIMENTAL_1_18_VERSIONS).map (fun v => (v, keyOf v)))).map Prod.fst) :=
    List.reverse_perm _
  have h2 : ((List.insertionSort keyLE
      ((fetched ++ EXPERIMENTAL_1_18_VERSIONS).map (fun v => (v, keyOf v)))).map Prod.fst).Perm
      (((fetched ++ EXPERIMENTAL_1_18_VERSIONS).map (fun v => (v, keyOf v))).map Prod.fst) :=
    (List.perm_insertionSort keyLE _).map Prod.fst
  have h4 := h1.trans h2
  rw [map_fst_decorated] at h4
  exact h4

theorem process_version_fetched_ok {details : String → Option RawDetail}
    {url : String} {v : Version}
    (h : process_version_fetched details url = Except.ok v) :
    ∃ doc, details url = some doc ∧ v = process_version url doc := by
  cases hd : details url with
  | none => simp [process_version_fetched, hd] at h
  | some doc =>
    simp only [process_version_fetched, hd] at h
    exact ⟨doc, rfl, by simpa using h.symm⟩

theorem fetched_url_some {details : String → Option RawDetail}
    {urls : List String} {fetched : List Version}
    (hf : urls.mapM (process_version_fetched details) = Except.ok fetched) :
    ∀ v ∈ fetched, ∃ u, v.url = some u := by
  intro v hv
  obtain ⟨u, -, hu⟩ := forall₂_mem_right (mapM_ok_forall₂ _ hf) v hv
  obtain ⟨doc, -, hdoc⟩ := process_version_fetched_ok hu
  exact ⟨u, by rw [hdoc]; rfl⟩

theorem append_newline_ne (s : String) : s ++ "\n" ≠ s := by
  intro h
  have hl := congrArg String.length h
  rw [String.length_append] at hl
  have h1 : "\n".length = 1 := rfl
  rw [h1] at hl
  omega

/-! ### Claim theorems -/

/-- C1: No-op short-circuit: when the previous fingerprint line read back
from the snapshot (dedupe) file equals the fingerprint computed from the
fetched manifest, `process_version_manifest` returns Unchanged (`none`),
its result does not depend on the per-entry detail oracle (so zero detail
fetches are performed), and `main` performs no file writes at all —
neither the README output nor a rewrite of the snapshot store. -/
theorem noop_short_circuit (details details2 : String → Option RawDetail) (m : ManifestJson)
    (content : Option String) (rr : List Version → String → String) (dr : String → String)
    (dir : String) (h : content.map readline = some (version_string m)) :
    process_version_manifest details (some m) (content.map readline) = Except.ok none ∧
    process_version_manifest details (some m) (content.map readline) =
      process_version_manifest details2 (some m) (content.map readline) ∧
    main details (some m) content rr dr dir = Except.ok [] := by
  refine ⟨pvm_unchanged h, ?_, ?_⟩
  · rw [pvm_unchanged h, pvm_unchanged h]
  · simp only [main]
    rw [pvm_unchanged h, ok_bind]
    rfl

/-- Witness for C1 at a concrete unchanged run whose stored fingerprint
is "1.20.1/23w31a". -/
theorem noop_short_circuit_witness :
    process_version_manifest detailsEmpty (some manifestA)
      ((some "1.20.1/23w31a").map readline) = Except.ok none ∧
    process_version_manifest detailsEmpty (some manifestA)
      ((some "1.20.1/23w31a").map readline) =
      process_version_manifest detailsTied (some manifestA)
        ((some "1.20.1/23w31a").map readline) ∧
    main detailsEmpty (some manifestA) (some "1.20.1/23w31a")
      (fun _ _ => "readme") (fun s => s) "out" = Except.ok [] :=
  noop_short_circuit detailsEmpty detailsTied manifestA (some "1.20.1/23w31a")
    (fun _ _ => "readme") (fun s => s) "out" rfl

/-- C4: Fingerprint format: every catalog the pipeline produces carries
the fingerprint built from its manifest as exactly
latest.release ++ "/" ++ latest.snapshot. -/
theorem fingerprint_format (details : String → Option RawDetail) (m : ManifestJson)
    (prev : Option String) (cat : VersionManifest)
    (h : process_version_manifest details (some m) prev = Except.ok (some cat)) :
    cat.version_string = m.latest.release ++ "/" ++ m.latest.snapshot := by
  obtain ⟨-, fetched, -, -, hvs, -⟩ := pvm_ok_some h
  exact hvs

/-- Witness for C4: the catalog built from latest release "1.20.1" and
snapshot "23w31a" has fingerprint exactly "1.20.1/23w31a". -/
theorem fingerprint_format_witness :
    catEmpty.version_string = "1.20.1" ++ "/" ++ "23w31a" ∧
    catEmpty.version_string = "1.20.1/23w31a" :=
  ⟨fingerprint_format detailsEmpty manifestA none catEmpty rfl, rfl⟩

/-- C7: Manifest-failure atomicity: when the top-level manifest cannot be
fetched or parsed, `process_version_manifest` fails with the manifest
error (no partial catalog), the failure propagates through `main`, and no
output file write is produced before the abort. -/
theorem manifest_failure_atomicity (details : String → Option RawDetail) (prev : Option String)
    (content : Option String) (rr : List Version → String → String) (dr : String → String)
    (dir : String) :
    process_version_manifest details none prev =
      Except.error PipelineError.manifestUnavailable ∧
    main details none content rr dr dir =
      Except.error PipelineError.manifestUnavailable :=
  ⟨rfl, rfl⟩

/-- C9: Exact-equality change detection: the pipeline returns Unchanged
iff the stored previous fingerprint is a string character-for-character
equal to the freshly computed fingerprint; the comparison does no
trimming, so a stored fingerprint followed by a trailing newline never
compares equal, and an absent previous fingerprint (first run) never
compares equal, so the build proceeds. -/
theorem exact_equality_change_detection (details : String → Option RawDetail)
    (m : ManifestJson) (prev : Option String) :
    (process_version_manifest details (some m) prev = Except.ok none ↔
      prev = some (version_string m)) ∧
    (∀ s : String, prev = some (s ++ "\n") → s = version_string m →
      process_version_manifest details (some m) prev ≠ Except.ok none) ∧
    (prev = none → process_version_manifest details (some m) prev ≠ Except.ok none) := by
  have hiff : process_version_manifest details (some m) prev = Except.ok none ↔
      prev = some (version_string m) := by
    constructor
    · intro h
      by_contra hc
      exact pvm_changed_ne_ok_none hc h
    · exact pvm_unchanged
  refine ⟨hiff, ?_, ?_⟩
  · intro s hs hsv h
    have h1 := hiff.mp h
    rw [hs] at h1
    have h2 : s ++ "\n" = version_string m := by simpa using h1
    exact append_newline_ne s (h2.trans hsv.symm)
  · intro hn h
    have h1 := hiff.mp h
    rw [hn] at h1
    simp at h1

/-- Witness for C9: concrete unchanged, trailing-newline and first-run
cases at fingerprint "1.20.1/23w31a". -/
theorem exact_equality_change_detection_witness :
    process_version_manifest detailsEmpty (some manifestA) (some "1.20.1/23w31a") =
      Except.ok none ∧
    process_version_manifest detailsEmpty (some manifestA)
      (some ("1.20.1/23w31a" ++ "\n")) ≠ Except.ok none ∧
    process_version_manifest detailsEmpty (some manifestA) none ≠ Except.ok none :=
  ⟨(exact_equality_change_detection detailsEmpty manifestA (some "1.20.1/23w31a")).1.mpr rfl,
   (exact_equality_change_detection detailsEmpty manifestA
     (some ("1.20.1/23w31a" ++ "\n"))).2.1 "1.20.1/23w31a" rfl rfl,
   (exact_equality_change_detection detailsEmpty manifestA none).2.2 rfl⟩

/-- C3: Descending sort order: the entries of every catalog the pipeline
returns are non-increasing by parsed publishedAt timestamp. -/
theorem catalog_sorted_descending (details : String → Option RawDetail) (m : ManifestJson)
    (prev : Option String) (cat : VersionManifest)
    (h : process_version_manifest details (some m) prev = Except.ok (some cat)) :
    cat.versions.Pairwise (fun a b => ∀ ta tb, releaseKey a.release_time = some ta →
      releaseKey b.release_time = some tb → tb ≤ ta) := by
  obtain ⟨-, fetched, hf, hall, -, hv⟩ := pvm_ok_some h
  rw [hv, List.pairwise_reverse, List.pairwise_map]
  have hs : (List.insertionSort keyLE
      ((fetched ++ EXPERIMENTAL_1_18_VERSIONS).map (fun v => (v, keyOf v)))).Pairwise keyLE :=
    List.sorted_insertionSort keyLE _
  refine hs.imp_of_mem ?_
  intro p q hp hq hle
  obtain ⟨vp, hvp, hpe⟩ := List.mem_map.mp ((List.mem_insertionSort keyLE).mp hp)
  obtain ⟨vq, hvq, hqe⟩ := List.mem_map.mp ((List.mem_insertionSort keyLE).mp hq)
  intro ta tb hta htb
  have hkp : releaseKey p.1.release_time = some p.2 := by
    rw [← hpe]; exact hall vp hvp
  have hkq : releaseKey q.1.release_time = some q.2 := by
    rw [← hqe]; exact hall vq hvq
  rw [hkq] at hta
  rw [hkp] at htb
  have h1 : ta = q.2 := (Option.some.inj hta).symm
  have h2 : tb = p.2 := (Option.some.inj htb).symm
  rw [h1, h2]
  exact hle

/-- Witness for C3 at a concrete run: the catalog built over the curated
entries alone is non-increasing by timestamp. -/
theorem catalog_sorted_descending_witness :
    (EXPERIMENTAL_1_18_VERSIONS.reverse).Pairwise (fun a b => ∀ ta tb,
      releaseKey a.release_time = some ta → releaseKey b.release_time = some tb → tb ≤ ta) :=
  catalog_sorted_descending detailsEmpty manifestA none catEmpty rfl

/-- C8: Supplement inclusion: every curated experimental version appears
exactly once in any catalog the pipeline produces, with no source url,
category exactly "experimental", no mappings artifact, a fixed release
time, and a primary artifact carrying only a location. -/
theorem supplement_inclusion (details : String → Option RawDetail) (m : ManifestJson)
    (prev : Option String) (cat : VersionManifest)
    (h : process_version_manifest details (some m) prev = Except.ok (some cat)) :
    ∀ v ∈ EXPERIMENTAL_1_18_VERSIONS,
      cat.versions.count v = 1 ∧ v.url = none ∧ v.type_ = some "experimental" ∧
      v.server_mappings = none ∧ (∃ t, v.release_time = some t) ∧
      (∃ loc, v.server = some ⟨none, none, some loc⟩) := by
  obtain ⟨fetched, hf, hperm⟩ := pvm_versions_perm h
  have h0 : ∀ v : Version, v.url = none → fetched.count v = 0 := by
    intro v hvu
    rw [List.count_eq_zero]
    intro hvf
    obtain ⟨u, hu⟩ := fetched_url_some hf v hvf
    rw [hvu] at hu
    simp at hu
  intro v hv
  fin_cases hv <;>
    refine ⟨?_, rfl, rfl, rfl, ⟨_, rfl⟩, ⟨_, rfl⟩⟩ <;>
    rw [hperm.count_eq, List.count_append, h0 _ rfl] <;>
    decide

/-- Witness for C8 at a concrete run containing only the curated entries. -/
theorem supplement_inclusion_witness :
    catEmpty.versions.count expOne = 1 ∧ expOne.url = none ∧
    expOne.type_ = some "experimental" :=
  have h := supplement_inclusion detailsEmpty manifestA none catEmpty rfl expOne (by decide)
  ⟨h.1, h.2.1, h.2.2.1⟩

/-- C10: No entry-level deduplication: any catalog the pipeline produces
is a permutation of the normalized remote entries followed by the 7
curated entries, hence has exactly N + 7 entries for a manifest listing N
version urls, and every per-predicate count is the sum of the two parts
(so a remote entry sharing an id with a curated entry appears alongside
it, not merged). -/
theorem no_entry_deduplication (details : String → Option RawDetail) (m : ManifestJson)
    (prev : Option String) (cat : VersionManifest)
    (h : process_version_manifest details (some m) prev = Except.ok (some cat)) :
    ∃ fetched, m.versions.mapM (process_version_fetched details) = Except.ok fetched ∧
      fetched.length = m.versions.length ∧
      cat.versions.Perm (fetched ++ EXPERIMENTAL_1_18_VERSIONS) ∧
      cat.versions.length = m.versions.length + 7 ∧
      (∀ p : Version → Bool, cat.versions.countP p =
        fetched.countP p + EXPERIMENTAL_1_18_VERSIONS.countP p) := by
  obtain ⟨fetched, hf, hperm⟩ := pvm_versions_perm h
  have hlen : fetched.length = m.versions.length :=
    ((mapM_ok_forall₂ _ hf).length_eq).symm
  refine ⟨fetched, hf, hlen, hperm, ?_, ?_⟩
  · rw [hperm.length_eq, List.length_append, hlen]
    rfl
  · intro p
    rw [hperm.countP_eq, List.countP_append]

/-- Witness for C10 at a concrete run whose single remote entry shares its
id with the first curated entry: the catalog holds both (count by id is
two). -/
theorem no_entry_deduplication_witness :
    (∃ fetched, manifestR.versions.mapM (process_version_fetched detailsDup) = Except.ok fetched ∧
      fetched.length = manifestR.versions.length ∧
      catDup.versions.Perm (fetched ++ EXPERIMENTAL_1_18_VERSIONS) ∧
      catDup.versions.length = manifestR.versions.length + 7 ∧
      (∀ p : Version → Bool, catDup.versions.countP p =
        fetched.countP p + EXPERIMENTAL_1_18_VERSIONS.countP p)) ∧
    catDup.versions.countP (fun x => x.id_ = some "1.18-exp1") = 2 :=
  ⟨no_entry_deduplication detailsDup manifestR none catDup rfl, by decide⟩

/-- C2 counterexample: a single remote entry (fetched from url u1, id r)
whose publishedAt equals the first curated entry's publishedAt. In the
merged pre-sort list the remote entry precedes the curated one, yet in
the returned catalog the curated entry (index 6) precedes the remote
entry (index 7), contradicting the claim that ties keep discovery order
with the remote entry first. -/
theorem tie_order_counterexample :
    process_version_manifest detailsTied (some manifestR) none = Except.ok (some catTied) ∧
    process_version_fetched detailsTied "u1" = Except.ok verTied ∧
    EXPERIMENTAL_1_18_VERSIONS[0]? = some expOne ∧
    releaseKey verTied.release_time = releaseKey expOne.release_time ∧
    catTied.versions[6]? = some expOne ∧
    catTied.versions[7]? = some verTied :=
  ⟨rfl, rfl, rfl, rfl, by decide, by decide⟩

/-- C2 (amended): tie order is reversed: for any two entries of the merged
pre-sort list (normalized remote entries followed by the curated
supplement) whose publishedAt timestamps parse equal, their relative
order in the returned catalog is the reverse of their discovery order —
in particular a curated entry tied with a remote entry precedes it. -/
theorem tie_reversed_discovery_order (details : String → Option RawDetail) (m : ManifestJson)
    (prev : Option String) (cat : VersionManifest) (fetched : List Version)
    (a b : Version) (t : Int)
    (h : process_version_manifest details (some m) prev = Except.ok (some cat))
    (hf : m.versions.mapM (process_version_fetched details) = Except.ok fetched)
    (hab : [a, b].Sublist (fetched ++ EXPERIMENTAL_1_18_VERSIONS))
    (ha : releaseKey a.release_time = some t)
    (hb : releaseKey b.release_time = some t) :
    [b, a].Sublist cat.versions := by
  obtain ⟨-, fetched2, hf2, hall, -, hv⟩ := pvm_ok_some h
  rw [hf] at hf2
  injection hf2 with hfe
  subst hfe
  rw [hv]
  have hka : keyOf a = t := by unfold keyOf; rw [ha]; rfl
  have hkb : keyOf b = t := by unfold keyOf; rw [hb]; rfl
  have hmap : [(a, keyOf a), (b, keyOf b)].Sublist
      ((fetched ++ EXPERIMENTAL_1_18_VERSIONS).map (fun v => (v, keyOf v))) := by
    simpa using hab.map (fun v => (v, keyOf v))
  have hle : keyLE (a, keyOf a) (b, keyOf b) := by
    show keyOf a ≤ keyOf b
    rw [hka, hkb]
  have hst := List.pair_sublist_insertionSort hle hmap
  have hmap2 := hst.map Prod.fst
  have hmap3 : [a, b].Sublist ((List.insertionSort keyLE
      ((fetched ++ EXPERIMENTAL_1_18_VERSIONS).map (fun v => (v, keyOf v)))).map Prod.fst) := by
    simpa using hmap2
  have hrev := hmap3.reverse
  simpa using hrev

/-- Witness for the amended C2: in the concrete tied run, the curated
entry precedes the tied remote entry in the final catalog. -/
theorem tie_reversed_discovery_order_witness :
    [expOne, verTied].Sublist catTied.versions :=
  tie_reversed_discovery_order detailsTied manifestR none catTied [verTied] verTied expOne
    1630454400 rfl rfl
    (List.Sublist.cons₂ verTied (List.Sublist.cons₂ expOne (List.nil_sublist _)))
    rfl rfl

/-- C6 counterexample: a run whose single remote detail document has no
releaseTime: the whole build fails with an unparseable-timestamp error —
no catalog of the remaining entries is produced and nothing is reported
as skipped, contradicting the claim that the entry is rejected with a
diagnostic while the rest is still sorted. -/
theorem stale_timestamp_counterexample :
    process_version_manifest detailsBad (some manifestR) none =
      Except.error (PipelineError.unparseableTimestamp verBad) :=
  rfl

/-- C6 (amended): an entry whose publishedAt cannot be parsed as a
timestamp makes the whole build fail: the sort raises on the first such
entry and `process_version_manifest` returns an unparseable-timestamp
error naming an offending entry, producing no catalog at all. -/
theorem stale_timestamp_aborts_build (details : String → Option RawDetail) (m : ManifestJson)
    (prev : Option String) (fetched : List Version) (v : Version)
    (hc : ¬ prev = some (version_string m))
    (hf : m.versions.mapM (process_version_fetched details) = Except.ok fetched)
    (hv : v ∈ fetched ++ EXPERIMENTAL_1_18_VERSIONS)
    (hbad : releaseKey v.release_time = none) :
    ∃ w ∈ fetched ++ EXPERIMENTAL_1_18_VERSIONS, releaseKey w.release_time = none ∧
      process_version_manifest details (some m) prev =
        Except.error (PipelineError.unparseableTimestamp w) := by
  have hde : ∃ x ∈ fetched ++ EXPERIMENTAL_1_18_VERSIONS, ∃ e, decorate x = Except.error e :=
    ⟨v, hv, PipelineError.unparseableTimestamp v, by simp [decorate, hbad]⟩
  obtain ⟨w, hw, e, he, hm⟩ := mapM_error_of_mem decorate hde
  obtain ⟨hwbad, hwe⟩ := decorate_eq_error he
  refine ⟨w, hw, hwbad, ?_⟩
  simp only [process_version_manifest]
  rw [if_neg hc, hf, ok_bind]
  have hsv : sortVersions (fetched ++ EXPERIMENTAL_1_18_VERSIONS) = Except.error e := by
    unfold sortVersions
    rw [hm, error_bind]
  rw [hsv, error_bind, hwe]
  rfl

/-- Witness for the amended C6 at the concrete run with one remote entry
lacking a releaseTime. -/
theorem stale_timestamp_aborts_build_witness :
    ∃ w ∈ [verBad] ++ EXPERIMENTAL_1_18_VERSIONS, releaseKey w.release_time = none ∧
      process_version_manifest detailsBad (some manifestR) none =
        Except.error (PipelineError.unparseableTimestamp w) :=
  stale_timestamp_aborts_build detailsBad manifestR none [verBad] verBad
    (by simp) rfl (List.mem_append_left _ (List.mem_cons_self _ _)) rfl

/-- C5: Normalizer tolerance and failure condition: on every detail
document that parses, `process_version` succeeds, copying each optional
field through (absent maps to absent), mapping an absent `downloads` to
both artifacts absent and an absent sub-object to the respective artifact
absent, and building present artifacts from whatever optional sub-fields
exist; the fetch+normalize step fails exactly when the document cannot be
fetched and parsed at all. -/
theorem normalizer_tolerance (details : String → Option RawDetail) (url : String) :
    ((∃ e, process_version_fetched details url = Except.error e) ↔ details url = none) ∧
    ∀ doc, details url = some doc →
      process_version_fetched details url = Except.ok (process_version url doc) ∧
      (process_version url doc).id_ = doc.id ∧
      (process_version url doc).type_ = doc.type_ ∧
      (process_version url doc).release_time = doc.releaseTime ∧
      (doc.downloads = none → (process_version url doc).server = none ∧
        (process_version url doc).server_mappings = none) ∧
      (∀ ds, doc.downloads = some ds →
        (ds.server = none → (process_version url doc).server = none) ∧
        (ds.server_mappings = none → (process_version url doc).server_mappings = none) ∧
        (∀ sd, ds.server = some sd →
          (process_version url doc).server = some ⟨sd.sha1, sd.size, sd.url⟩) ∧
        (∀ sd, ds.server_mappings = some sd →
          (process_version url doc).server_mappings = some ⟨sd.sha1, sd.size, sd.url⟩)) := by
  constructor
  · constructor
    · rintro ⟨e, he⟩
      cases hd : details url with
      | none => rfl
      | some doc => rw [process_version_fetched, hd] at he; simp at he
    · intro hd
      exact ⟨PipelineError.malformedDocument url, by rw [process_version_fetched, hd]⟩
  · intro doc hd
    refine ⟨by rw [process_version_fetched, hd], rfl, rfl, rfl, ?_, ?_⟩
    · intro hdl
      constructor <;> simp [process_version, hdl]
    · intro ds hds
      refine ⟨?_, ?_, ?_, ?_⟩
      · intro hsv; simp [process_version, hds, hsv]
      · intro hsm; simp [process_version, hds, hsm]
      · intro sd hsd; simp [process_version, hds, hsd]
      · intro sd hsd; simp [process_version, hds, hsd]

/-- Witness for C5: a detail document with every field absent normalizes
to an entry with only its source url set, and a missing downloads object
yields both artifacts absent. -/
theorem normalizer_tolerance_witness :
    process_version_fetched (fun _ => some ⟨none, none, none, none⟩) "u" =
      Except.ok (process_version "u" ⟨none, none, none, none⟩) ∧
    (process_version "u" ⟨none, none, none, none⟩).server = none ∧
    (process_version "u" ⟨none, none, none, none⟩).server_mappings = none ∧
    (process_version "u" ⟨none, none, none, none⟩).id_ = none :=
  have h := (normalizer_tolerance (fun _ => some ⟨none, none, none, none⟩) "u").2
    ⟨none, none, none, none⟩ rfl
  ⟨h.1, (h.2.2.2.2.1 rfl).1, (h.2.2.2.2.1 rfl).2, h.2.1⟩

end MCVersions
